import Mathlib

/-!
Verification of `ntext` (src/ntext.py): a shallow embedding of the string
diagram data structure and its operations, with theorems settling the
spec claims.

Modelling conventions:

* Python `None` in a diagram position is the extra constructor `Ntext.null`;
  a diagram's optional `smap`/`tmap` dictionaries are `Option SDict`.
* Python dictionaries keyed by strings are association lists kept sorted by
  key (`Dict`).  Every dictionary the code builds is produced through the
  sorted insert `setD`, so two dictionaries are structurally equal in the
  model exactly when they are `==`-equal in Python (Python dict equality
  ignores insertion order, and every loop in the source treats each name
  independently, so iteration order never influences a computed value).
* Exceptions are modelled with `Except PyErr`; each error constructor names
  the Python exception class raised on that path.
* `deepcopy` on these immutable values is the identity and is not modelled
  separately; in-place mutation of an argument (as in `stitch`) is modelled
  by returning the mutated value alongside the result.
-/

deriving instance DecidableEq for Except

/-- The Python exceptions the code can raise, including the two library
error classes `NotComposable` and `NotCompatible`. -/
inductive PyErr where
  | notComposable
  | notCompatible
  | typeError
  | keyError
  | attributeError
  | valueError
  | indexError
  | assertError
  | nameError
deriving DecidableEq, Repr

/-- A Python dict with string keys, as a key-sorted association list. -/
abbrev Dict (α : Type) := List (String × α)

/-- Strict ordering on the character lists of two keys. -/
def charsLt : List Char → List Char → Bool
  | _, [] => false
  | [], _ :: _ => true
  | a :: as, b :: bs =>
      a.toNat < b.toNat || (a.toNat == b.toNat && charsLt as bs)

/-- Strict ordering on keys, used only to keep dictionaries canonical. -/
def keyLt (a b : String) : Bool := charsLt a.data b.data

/-- Dictionary lookup (`d[k]` / `d.get(k)`). -/
def lookupD {α : Type} : Dict α → String → Option α
  | [], _ => none
  | (k1, v1) :: rest, k => if k = k1 then some v1 else lookupD rest k

/-- Dictionary update (`d[k] = v`), inserting in sorted position. -/
def setD {α : Type} : Dict α → String → α → Dict α
  | [], k, v => [(k, v)]
  | (k1, v1) :: rest, k, v =>
      if k = k1 then (k, v) :: rest
      else if keyLt k k1 then (k, v) :: (k1, v1) :: rest
      else (k1, v1) :: setD rest k v

/-- Membership test (`k in d`). -/
def containsKey {α : Type} (d : Dict α) (k : String) : Bool :=
  (lookupD d k).isSome

/-- An index map from names to ordered index lists (the values of `smap`,
`tmap` and of a cell record's `source`/`target`). -/
abbrev SDict := Dict (List Nat)

/-- A cell record: `NtextCell = namedtuple('NtextCell', ['source', 'target'])`,
each field a map from name to ordered index lists. -/
structure NtextCell where
  source : SDict
  target : SDict
deriving DecidableEq, Repr

/-- A value of a cell inventory: for a name of dimension 0 an integer count,
otherwise an ordered list of cell records.  `pre_stitch` fills new slots with
`None` placeholders, so record lists hold `Option NtextCell`. -/
inductive CellVal where
  | cnt : Nat → CellVal
  | recs : List (Option NtextCell) → CellVal
deriving DecidableEq, Repr

/-- A cell inventory: a dict from names to counts or record lists. -/
abbrev NtextMap := Dict CellVal

/-- The `cells` field of a diagram: an atomic name for dimension 0,
an inventory for dimension at least 1. -/
inductive Cells where
  | atom : String → Cells
  | inv : NtextMap → Cells
deriving DecidableEq, Repr

/-- The diagram value, `Ntext = namedtuple(..., ['cells', 'dim', 'source',
'target', 'smap', 'tmap'])`.  `null` stands for Python `None` stored in a
diagram-typed position (the `source`/`target` of a 0-dimensional diagram). -/
inductive Ntext where
  | null : Ntext
  | mk (cells : Cells) (dim : Nat) (source target : Ntext)
      (smap tmap : Option SDict) : Ntext
deriving DecidableEq, Repr

/-- The `cells` field (junk on `null`, which has no attributes). -/
def Ntext.cellsD : Ntext → Cells
  | .null => .atom ""
  | .mk c _ _ _ _ _ => c

/-- The `dim` field (junk on `null`). -/
def Ntext.dimD : Ntext → Nat
  | .null => 0
  | .mk _ d _ _ _ _ => d

/-- The `source` field (junk on `null`). -/
def Ntext.sourceD : Ntext → Ntext
  | .null => .null
  | .mk _ _ s _ _ _ => s

/-- The `target` field (junk on `null`). -/
def Ntext.targetD : Ntext → Ntext
  | .null => .null
  | .mk _ _ _ t _ _ => t

/-- The `smap` field (junk on `null`). -/
def Ntext.smapD : Ntext → Option SDict
  | .null => none
  | .mk _ _ _ _ sm _ => sm

/-- The `tmap` field (junk on `null`). -/
def Ntext.tmapD : Ntext → Option SDict
  | .null => none
  | .mk _ _ _ _ _ tm => tm

/-- Replace only the `cells` field of a diagram. -/
def Ntext.withCells : Ntext → Cells → Ntext
  | .null, _ => .null
  | .mk _ d s t sm tm, c => .mk c d s t sm tm

/-- Look a name up in a diagram's inventory (for stating theorems). -/
def Ntext.invLookup (d : Ntext) (k : String) : Option CellVal :=
  match d with
  | .mk (.inv I) _ _ _ _ _ => lookupD I k
  | _ => none

/-- `_ref = namedtuple('_ref', ['index', 'is_new'])`. -/
structure Ref where
  index : Nat
  is_new : Bool
deriving DecidableEq, Repr

/-- The correspondence table threaded through composability and stitching:
keys are `(name, index)` pairs.  Python dict semantics (lookup anywhere,
overwrite in place); it is never compared for equality or iterated, so a
plain association list with replace-or-append update is faithful. -/
abbrev Mapping := List ((String × Nat) × Ref)

/-- Mapping lookup (`mapping[(name, i)]`). -/
def lookupM : Mapping → String × Nat → Option Ref
  | [], _ => none
  | (k1, v1) :: rest, k => if k = k1 then some v1 else lookupM rest k

/-- Mapping update (`mapping[(name, i)] = ref`). -/
def setM : Mapping → String × Nat → Ref → Mapping
  | [], k, v => [(k, v)]
  | (k1, v1) :: rest, k, v =>
      if k = k1 then (k, v) :: rest else (k1, v1) :: setM rest k v

/-- `zcell(name)`: `Ntext(name, 0, None, None, None, None)`. -/
def zcell (name : String) : Ntext :=
  .mk (.atom name) 0 .null .null none none

/-- The loop of `icell` for `ntext.dim >= 1`: `for n, p in cells.items():
smap[n] = range(len(p))`.  `len(p)` raises `TypeError` when `p` is an
integer count.  The stored `range` object is modelled as the index list
it denotes; no constructible diagram reaches this branch with a successful
result (a count entry is always present), so the `range`-vs-`list`
distinction under Python `==` is never observed. -/
def icellLoop : NtextMap → SDict → Except PyErr SDict
  | [], smap => .ok smap
  | (_, .cnt _) :: _, _ => .error .typeError
  | (n, .recs l) :: rest, smap => icellLoop rest (setD smap n (List.range l.length))

/-- `icell(ntext)`: the identity diagram one dimension above `ntext`.
Called with `None` (as in `Composition.__init__` on a 0-dimensional
diagram) it raises `AttributeError` at `ntext.dim`.  For `dim == 0` the
cells value is used as a dict key, so a dict-valued `cells` would raise
`TypeError` (unhashable). -/
def icell : Ntext → Except PyErr Ntext
  | .null => .error .attributeError
  | t@(.mk cells dim _ _ _ _) =>
      if dim = 0 then
        match cells with
        | .inv _ => .error .typeError
        | .atom n =>
            .ok (.mk (.inv [(n, .cnt 1)]) (dim + 1) t t
              (some [(n, [0])]) (some [(n, [0])]))
      else
        match cells with
        | .atom _ => .error .attributeError
        | .inv I => do
            let smap ← icellLoop I []
            .ok (.mk (.inv I) (dim + 1) t t (some smap) (some smap))

/-- `compatible(source, target)`: the globular condition
`source.source == target.source and source.target == target.target`,
with the maintained-invariant assertion `source.dim == target.dim` when it
holds.  Attribute access on `None` raises `AttributeError`. -/
def compatible : Ntext → Ntext → Except PyErr Bool
  | .null, _ => .error .attributeError
  | .mk _ sdim ss st _ _, t =>
      match t with
      | .null => .error .attributeError
      | .mk _ tdim ts tt _ _ =>
          if ss = ts ∧ st = tt then
            if sdim = tdim then .ok true else .error .assertError
          else .ok false

/-- The source-copy loop of `_ncell` for `dim > 0`:
`for n, cells in source.cells.items(): ntext[n] = [deepcopy(c) for c in cells];
smap[n] = list(range(len(cells)))` (with `ncsource[n]` a copy of `smap[n]`).
Iterating an integer count raises `TypeError`. -/
def ncellSrcLoop : NtextMap → NtextMap × SDict → Except PyErr (NtextMap × SDict)
  | [], acc => .ok acc
  | (_, .cnt _) :: _, _ => .error .typeError
  | (n, .recs cs) :: rest, (inv, smap) =>
      ncellSrcLoop rest (setD inv n (.recs cs), setD smap n (List.range cs.length))

/-- The target-append loop of `_ncell` for `dim > 0`: appends each of
`target.cells`' sequences after whatever is present, recording the per-name
offset and `tmap[n] = list(range(off, len(cells)+off))` (with `nctarget[n]`
a copy).  `len`/`extend` on an integer count raises `TypeError`. -/
def ncellTgtLoop : NtextMap → NtextMap × Dict Nat × SDict →
    Except PyErr (NtextMap × Dict Nat × SDict)
  | [], acc => .ok acc
  | (_, .cnt _) :: _, _ => .error .typeError
  | (n, .recs cs) :: rest, (inv, offset, tmap) =>
      match lookupD inv n with
      | some (.cnt _) => .error .typeError  -- len() of an integer entry
      | some (.recs l) =>
          ncellTgtLoop rest (setD inv n (.recs (l ++ cs)), setD offset n l.length,
            setD tmap n ((List.range cs.length).map (fun j => j + l.length)))
      | none =>
          ncellTgtLoop rest (setD inv n (.recs cs), setD offset n 0,
            setD tmap n (List.range cs.length))

/-- The reference-translation loop of `_ncell` for `dim > 0`:
`for n, cells in ntext.items(): for i in range(offset[n], len(cells)): for
cell in cells[i]: apply_offset(...)`.  A name absent from `offset` (always
the case for the fresh `name` unless it occurs in `target.cells`) raises
`KeyError`; when the range is non-empty, iterating the record named tuple
yields its two field dicts and `cell.source` raises `AttributeError` (or
`TypeError` on a `None` placeholder slot), so the loop only completes when
every appended range is empty. -/
def ncellOffLoop (offset : Dict Nat) : NtextMap → Except PyErr Unit
  | [] => .ok ()
  | (n, v) :: rest =>
      match lookupD offset n with
      | none => .error .keyError
      | some off =>
          match v with
          | .cnt _ => .error .typeError
          | .recs l =>
              if h : off < l.length then
                match l.get ⟨off, h⟩ with
                | none => .error .typeError
                | some _ => .error .attributeError
              else ncellOffLoop offset rest

/-- `_ncell(name, source, target)`: builds the new generator diagram of
dimension `source.dim + 1` (assumes `name` unused).  The new record's
`ncsource`/`nctarget` maps are entry-for-entry copies of the computed
`smap`/`tmap`, so the record is written as `(smap, tmap)`; when the
source loop overwrites the `name` entry (name collision) the record is
dropped from the inventory, exactly as in the Python dict. -/
def _ncell (name : String) (source target : Ntext) : Except PyErr Ntext :=
  match source with
  | .null => .error .attributeError  -- source.dim
  | .mk scells sdim _ _ _ _ =>
      if sdim > 0 then
        match scells with
        | .atom _ => .error .attributeError  -- source.cells.items()
        | .inv sI => do
            let (inv1, smap) ← ncellSrcLoop sI ([(name, .recs [some ⟨[], []⟩])], [])
            match target with
            | .null => .error .attributeError  -- target.cells
            | .mk (.atom _) _ _ _ _ _ => .error .attributeError
            | .mk (.inv tI) _ _ _ _ _ => do
                let (inv2, offset, tmap) ← ncellTgtLoop tI (inv1, [], [])
                let _ ← ncellOffLoop offset inv2
                let invF :=
                  if containsKey sI name then inv2
                  else
                    match lookupD inv2 name with
                    | some (.recs (_ :: restRecs)) =>
                        setD inv2 name (.recs (some ⟨smap, tmap⟩ :: restRecs))
                    | _ => inv2
                .ok (.mk (.inv invF) (sdim + 1) source target (some smap) (some tmap))
      else
        match scells with
        | .inv _ => .error .typeError  -- a dict is not hashable as a key
        | .atom sn =>
            match target with
            | .null => .error .attributeError  -- target.cells
            | .mk (.inv _) _ _ _ _ _ => .error .typeError
            | .mk (.atom tn) _ _ _ _ _ =>
                if tn = name ∧ tn ≠ sn then
                  -- ntext[tn] is the new record list; `+= 1` raises TypeError
                  .error .typeError
                else
                  let smap : SDict := [(sn, [0])]
                  let tmap : SDict := [(tn, [if tn = sn then 1 else 0])]
                  let inv1 := setD [(name, CellVal.recs [some ⟨smap, tmap⟩])] sn (.cnt 1)
                  let inv2 :=
                    if tn = sn then setD inv1 tn (.cnt 2) else setD inv1 tn (.cnt 1)
                  .ok (.mk (.inv inv2) (sdim + 1) source target (some smap) (some tmap))

/-- `ncell(name, source, target)`: raises `NotCompatible` unless
`compatible(source, target)`, then defers to `_ncell`. -/
def ncell (name : String) (source target : Ntext) : Except PyErr Ntext := do
  let c ← compatible source target
  if !c then .error .notCompatible else _ncell name source target

/-- The map-composition loop of `get_face` for `dim > 0`:
`for n, p in cell.smap.items(): smap[n] = [p[i] for i in scmap[n]]`.
`scmap` is the recursive face map: subscripting `None` raises `TypeError`,
a missing name `KeyError`, and an out-of-range `p[i]` `IndexError`. -/
def faceMapLoop (scmap : Option SDict) : SDict → SDict → Except PyErr SDict
  | [], acc => .ok acc
  | (n, p) :: rest, acc =>
      match scmap with
      | none => .error .typeError
      | some sc =>
          match lookupD sc n with
          | none => .error .keyError
          | some idxs => do
              let vals ← idxs.mapM (fun i =>
                match p.get? i with
                | some v => Except.ok v
                | none => Except.error PyErr.indexError)
              faceMapLoop scmap rest (setD acc n vals)

/-- `get_face(cell, dim, side)`: the face of `cell` at relative dimension
`dim` on the given side, paired with the index map into `cell`'s cells.
For `dim > 0` it recurses through `cell.source` and composes `cell.smap`
with the recursive face map.  Any attribute access on `None` raises
`AttributeError`. -/
def get_face : Ntext → Nat → Int → Except PyErr (Ntext × Option SDict)
  | .null, _, _ => .error .attributeError
  | .mk _ _ csource ctarget csmap ctmap, dim, side =>
      if dim > 0 then do
        let (sc, scmap) ← get_face csource (dim - 1) side
        match csmap with
        | none => .error .attributeError  -- None.items()
        | some sd => do
            let smap ← faceMapLoop scmap sd []
            .ok (sc, some smap)
      else if side < 0 then .ok (csource, csmap)
      else .ok (ctarget, ctmap)

/-- The inner loop of `composable`'s mapping population:
`for i, k in enumerate(pos): mapping[(name, k)] = _ref(t[i], False)`. -/
def composableEnumLoop (name : String) (t : List Nat) :
    List (Nat × Nat) → Mapping → Except PyErr Mapping
  | [], m => .ok m
  | (i, k) :: rest, m =>
      match t.get? i with
      | none => .error .indexError
      | some ti => composableEnumLoop name t rest (setM m (name, k) ⟨ti, false⟩)

/-- The mapping-population loop of `composable`:
`for name, pos in smap.items(): t = tmap[name]; ...`.  It runs before the
face equality is checked, so a name of the source face missing from the
target face map raises `KeyError` (and a shorter entry `IndexError`). -/
def composableMapLoop (tmap : Option SDict) : SDict → Mapping → Except PyErr Mapping
  | [], m => .ok m
  | (name, pos) :: rest, m =>
      match tmap with
      | none => .error .typeError  -- None[name]
      | some td =>
          match lookupD td name with
          | none => .error .keyError
          | some t => do
              let m ← composableEnumLoop name t pos.enum m
              composableMapLoop tmap rest m

/-- `composable(dst, src, dim, mapping)`: fails closed (returns `False`)
only on a dimension mismatch; otherwise extracts both gluing faces, runs
the mapping-population loop when a mapping is supplied, and returns the
structural equality `source == target` of the faces together with the
(mutated) mapping. -/
def composable (dst src : Ntext) (dim : Nat) (mapping : Option Mapping) :
    Except PyErr (Bool × Option Mapping) :=
  match dst, src with
  | .null, _ => .error .attributeError  -- dst.dim
  | _, .null => .error .attributeError  -- src.dim
  | .mk _ ddim _ _ _ _, .mk _ sdim _ _ _ _ =>
      if ddim ≠ sdim then .ok (false, mapping)
      else do
        let (target, tmap) ← get_face dst dim 1
        let (source, smap) ← get_face src dim (-1)
        match mapping with
        | none => .ok (decide (source = target), none)
        | some m =>
            match smap with
            | none => .error .attributeError  -- None.items()
            | some sd => do
                let m ← composableMapLoop tmap sd m
                .ok (decide (source = target), some m)

/-- The slot-allocation loop of `pre_stitch`: walks `range(length)` and
allocates the next free index for every `(name, i)` not already present
in the mapping, flagged `is_new = True`. -/
def allocLoop (name : String) : List Nat → Mapping → Nat → Mapping × Nat
  | [], m, cl => (m, cl)
  | i :: rest, m, cl =>
      if (lookupM m (name, i)).isSome then allocLoop name rest m cl
      else allocLoop name rest (setM m (name, i) ⟨cl, true⟩) (cl + 1)

/-- One name of `pre_stitch`: extends `dst`'s storage for that name
(placeholder `None` entries for record lists, a bumped counter for counts)
after allocating mapping slots.  Mixed count/list storage between `src` and
`dst` follows the duck-typed behaviour: `len()` of a non-zero count raises
`TypeError`; `dst.get(name) or []` silently replaces a zero count by an
empty list; with list storage under an integer `src` entry the first fresh
allocation raises `TypeError` at `clength += 1`. -/
def preStitchOne (d : NtextMap) (m : Mapping) (name : String) (v : CellVal) :
    Except PyErr (NtextMap × Mapping) :=
  match v with
  | .cnt length =>
      match lookupD d name with
      | some (.recs l) =>
          if (List.range length).all (fun i => (lookupM m (name, i)).isSome)
          then .ok (setD d name (.recs l), m) else .error .typeError
      | some (.cnt c) =>
          let d1 := if c = 0 then setD d name (.cnt 0) else d
          let p := allocLoop name (List.range length) m c
          .ok (setD d1 name (.cnt p.2), p.1)
      | none =>
          -- dst.get(name, 0) = 0 is falsy: `dst[name] = cells` installs 0
          let d1 := setD d name (.cnt 0)
          let p := allocLoop name (List.range length) m 0
          .ok (setD d1 name (.cnt p.2), p.1)
  | .recs lst =>
      match lookupD d name with
      | some (.cnt (_ + 1)) => .error .typeError  -- len() of a non-zero count
      | some (.cnt 0) | none =>
          let p := allocLoop name (List.range lst.length) m 0
          .ok (setD d name (.recs (List.replicate p.2 none)), p.1)
      | some (.recs l) =>
          let p := allocLoop name (List.range lst.length) m l.length
          .ok (setD d name (.recs (l ++ List.replicate (p.2 - l.length) none)), p.1)

/-- `pre_stitch(dst, src, mapping)`: the pre-pass over every name of `src`. -/
def pre_stitch (d : NtextMap) (m : Mapping) : NtextMap → Except PyErr (NtextMap × Mapping)
  | [] => .ok (d, m)
  | (name, v) :: rest => do
      let (d1, m1) ← preStitchOne d m name v
      pre_stitch d1 m1 rest

/-- The index-translation of a record's `source`/`target` map through the
mapping: `t[n] = [mapping[(n, k)].index for k in p]`; a missing key raises
`KeyError`.  Also models the identical loop of `compose`'s vertical branch
(`tmap[n] = [mapping[(n, i)].index for i in p]`). -/
def transMap (m : Mapping) : SDict → SDict → Except PyErr SDict
  | [], acc => .ok acc
  | (n, p) :: rest, acc => do
      let vals ← p.mapM (fun k =>
        match lookupM m (n, k) with
        | some r => Except.ok r.index
        | none => Except.error PyErr.keyError)
      transMap m rest (setD acc n vals)

/-- The main-pass fill loop of `stitch` for one name with list storage:
every `is_new` entry must land on a `None` placeholder (`assert`), which is
replaced by the translated record; `is_new = False` entries are skipped. -/
def stitchFillLoop (m : Mapping) (name : String) :
    List (Nat × Option NtextCell) → List (Option NtextCell) →
    Except PyErr (List (Option NtextCell))
  | [], cells => .ok cells
  | (i, cellO) :: rest, cells =>
      match lookupM m (name, i) with
      | none => .error .keyError
      | some r =>
          if r.is_new then
            match cells.get? r.index with
            | none => .error .indexError        -- cells[j] out of range
            | some (some _) => .error .assertError  -- assert cells[j] is None
            | some none =>
                match cellO with
                | none => .error .attributeError  -- cell.source on None
                | some cell => do
                    let src ← transMap m cell.source []
                    let tgt ← transMap m cell.target []
                    stitchFillLoop m name rest (cells.set r.index (some ⟨src, tgt⟩))
          else stitchFillLoop m name rest cells

/-- The main-pass loop of `stitch` for one name whose `dst` storage is an
integer count: any `is_new` entry subscripts the integer (`TypeError`). -/
def stitchIntLoop (m : Mapping) (name : String) :
    List (Nat × Option NtextCell) → Except PyErr Unit
  | [] => .ok ()
  | (i, _) :: rest =>
      match lookupM m (name, i) with
      | none => .error .keyError
      | some r => if r.is_new then .error .typeError else stitchIntLoop m name rest

/-- One name of `stitch`'s main pass. -/
def mainStitchOne (d : NtextMap) (m : Mapping) (name : String) (v : CellVal) :
    Except PyErr NtextMap :=
  match v with
  | .cnt _ => .ok d  -- continue
  | .recs lst =>
      match lookupD d name with
      | none => .error .keyError  -- dst[name]
      | some (.cnt _) => do
          let _ ← stitchIntLoop m name lst.enum
          .ok d
      | some (.recs l) => do
          let l2 ← stitchFillLoop m name lst.enum l
          .ok (setD d name (.recs l2))

/-- The main pass of `stitch` over every name of `src`. -/
def mainStitch (d : NtextMap) (m : Mapping) : NtextMap → Except PyErr NtextMap
  | [] => .ok d
  | (name, v) :: rest => do
      let d1 ← mainStitchOne d m name v
      mainStitch d1 m rest

/-- `stitch(dst, src, mapping)` on the `cells` fields: `pre_stitch` then the
main pass.  A string-valued `src.cells` has no `.items()`; a string-valued
`dst.cells` has no `.get` (reached only when `src` has at least one name).
The mutated `dst` inventory is returned. -/
def stitchCells (dst src : Cells) (m : Mapping) : Except PyErr (Cells × Mapping) :=
  match src with
  | .atom _ => .error .attributeError
  | .inv s =>
      match dst with
      | .atom a => if s.isEmpty then .ok (.atom a, m) else .error .attributeError
      | .inv d => do
          let (d1, m1) ← pre_stitch d m s
          let d2 ← mainStitch d1 m1 s
          .ok (.inv d2, m1)

/-- The boundary-map extension loop of `compose`'s `dim > 0` branch:
`for n, p in sm:` iterates the KEYS of the dict `sm`, unpacking each key
string into `n, p`; a key of length other than two raises `ValueError`,
and for a two-character key the subsequent `cm[(n, i)]` lookup uses a
`(str, str)` key that is never present in the correspondence table (whose
keys are `(str, int)` pairs), raising `KeyError` — after possibly
installing `dm[n] = []`, a mutation discarded with the exception.  Only an
empty `sm` completes.  (With keys of mixed lengths Python's insertion
order picks which of the two errors fires; the model uses the sorted
first key.) -/
def smLoopBug (sm dm : Option SDict) : Except PyErr Unit :=
  match sm with
  | none => .error .typeError  -- iterating None
  | some [] => .ok ()
  | some ((k, _) :: _) =>
      if k.length = 2 then
        match dm with
        | none => .error .typeError  -- `n not in dm` with dm None
        | some _ => .error .keyError
      else .error .valueError

/-- The result of one `compose(dst, src, dim, mapping)` call: the returned
diagram (`null` for Python `None` on the not-composable path), the boolean
flag, the observable state of `dst` after the call (its `cells` — and on
the recursive path its boundaries — are mutated in place), and the final
correspondence table. -/
structure ComposeOut where
  res : Ntext
  ok : Bool
  dstA : Ntext
  map : Mapping
deriving DecidableEq, Repr

/-- The tail of `compose` for `dim > 0`: the loop over the two boundary
tuples, with the recursive `compose` results passed in as values.
`assert c` fails on a false flag; the key-unpacking loop `for n, p in sm:`
is `smLoopBug`; and since `smap`/`tmap` are only ever assigned in the
`dim == 0` branch, the final `Ntext(...)` constructor raises
`UnboundLocalError` (modelled `nameError`) even when every loop
completes — this branch never returns a diagram. -/
def composeHighTail (e0 : Except PyErr ComposeOut) (ssmap dsmap : Option SDict)
    (e1 : Except PyErr ComposeOut) (stmap dtmap : Option SDict) :
    Except PyErr ComposeOut := do
  let out0 ← e0
  if !out0.ok then .error .assertError
  else do
    let _ ← smLoopBug ssmap dsmap
    let out1 ← e1
    if !out1.ok then .error .assertError
    else do
      let _ ← smLoopBug stmap dtmap
      .error .nameError

/-- The tail of `compose` for `dim == 0` (vertical composition): the result
keeps `dst.source`/`dst.smap`, takes a copy of `src.target`, and rebuilds
`tmap` by translating every index of `src.tmap` through the mapping. -/
def composeVertTail (ntext : Cells) (ddim : Nat) (dsource dtarget : Ntext)
    (dsmap dtmap : Option SDict) (starget : Ntext) (stmap : Option SDict)
    (mapping : Mapping) : Except PyErr ComposeOut :=
  match stmap with
  | none => .error .attributeError  -- src.tmap.items() on None
  | some stm => do
      let tmapN ← transMap mapping stm []
      .ok ⟨.mk ntext ddim dsource starget dsmap (some tmapN), true,
        .mk ntext ddim dsource dtarget dsmap dtmap, mapping⟩

/-- `compose(dst, src, dim, mapping)`.  Validates `composable` (which may
itself raise while populating the mapping), then stitches `src.cells`
directly into `dst.cells` (no copy is taken: `ntext = dst.cells`), and
finishes with `composeHighTail` (for `dim > 0`, recursing into the
boundaries with fresh tables) or `composeVertTail` (for `dim == 0`). -/
def compose : Ntext → Ntext → Nat → Mapping → Except PyErr ComposeOut
  | .null, _, _, _ => .error .attributeError  -- composable reads dst.dim
  | .mk dcells ddim dsource dtarget dsmap dtmap, src, dim, mapping0 => do
      let co ← composable (.mk dcells ddim dsource dtarget dsmap dtmap) src dim
        (some mapping0)
      let mapping := match co.2 with | some m => m | none => mapping0
      if !co.1 then
        .ok ⟨.null, false, .mk dcells ddim dsource dtarget dsmap dtmap, mapping⟩
      else
        match src with
        | .null => .error .attributeError  -- src.cells
        | .mk scells _ ssource starget ssmap stmap => do
            let st ← stitchCells dcells scells mapping
            if dim > 0 then
              composeHighTail (compose dsource ssource (dim - 1) []) ssmap dsmap
                (compose dtarget starget (dim - 1) []) stmap dtmap
            else
              composeVertTail st.1 ddim dsource dtarget dsmap dtmap starget stmap
                st.2

/-- `Composition.__init__(self, ntext)`: the internal state is
`icell(ntext.source)`; for a 0-dimensional argument `ntext.source` is
`None` and `icell` raises `AttributeError` at `None.dim`. -/
def compositionInit : Ntext → Except PyErr Ntext
  | .null => .error .attributeError
  | .mk _ _ s _ _ _ => icell s

/-- `Composition.compose(self, factor, n)`: runs the module-level `compose`
on the internal state with a fresh table; raises `NotComposable` when the
flag is false, otherwise replaces the internal state with the result
(returned here as the new state). -/
def compositionStep (st factor : Ntext) (n : Nat) : Except PyErr Ntext := do
  let out ← compose st factor n []
  if !out.ok then .error .notComposable else .ok out.res

/-- `Composition.ntext(self)`: `deepcopy` of the internal state — the
identity on these immutable values. -/
def compositionNtext (st : Ntext) : Ntext := st

/-- A requested reordering: name to list of positions. -/
abbrev Perm := Dict (List Nat)

/-- `permute(ntext, mapping, perm)` as invoked by `adapt`, whose call site
passes the diagram `cell.source` (an `Ntext` named tuple) as `ntext` rather
than an inventory dict: the first iteration's `ntext[name]` subscripts a
tuple with a string key (or subscripts `None`), raising `TypeError`, so the
call returns (with both containers untouched) only when `perm` is empty. -/
def permute (ntext : Ntext) (mapping : Option SDict) (perm : Perm) :
    Except PyErr (Ntext × Option SDict) :=
  match perm with
  | [] => .ok (ntext, mapping)
  | _ :: _ => .error .typeError

/-- `adapt(cell, dim, perm)`: walks `dim` levels down through `source` and
`target` in lock-step and calls `permute` on that level's `source` and
`smap`.  The in-place mutation is modelled by returning the new diagram. -/
def adapt : Ntext → Nat → Perm → Except PyErr Ntext
  | .null, _, _ => .error .attributeError  -- cell.source on None
  | .mk c d s t sm tm, dim, perm =>
      if dim > 0 then do
        let s2 ← adapt s (dim - 1) perm
        let t2 ← adapt t (dim - 1) perm
        .ok (.mk c d s2 t2 sm tm)
      else do
        let p ← permute s sm perm
        .ok (.mk c d p.1 t p.2 tm)

/-- The generator `x = zcell("x")`. -/
def xG : Ntext := zcell "x"

/-- The generator `y = zcell("y")`. -/
def yG : Ntext := zcell "y"

/-- The 1-cell `f = ncell("f", x, y)`, written out. -/
def fD : Ntext :=
  .mk (.inv [("f", .recs [some ⟨[("x", [0])], [("y", [0])]⟩]),
    ("x", .cnt 1), ("y", .cnt 1)]) 1 xG yG
    (some [("x", [0])]) (some [("y", [0])])

/-- The 1-cell `g = ncell("g", y, x)`, written out. -/
def gD : Ntext :=
  .mk (.inv [("g", .recs [some ⟨[("y", [0])], [("x", [0])]⟩]),
    ("x", .cnt 1), ("y", .cnt 1)]) 1 yG xG
    (some [("y", [0])]) (some [("x", [0])])

/-- The identity on `x`: `icell(x)`, the initial state of `Composition(f)`. -/
def idX : Ntext :=
  .mk (.inv [("x", .cnt 1)]) 1 xG xG (some [("x", [0])]) (some [("x", [0])])

/-- The observable state of `dst = icell(x)` after the successful
`compose(dst, f, 0)` of scenario 1: its `cells` dict has been extended in
place by `stitch` (the result diagram shares it), while the remaining
fields are untouched. -/
def idXAfter : Ntext :=
  .mk fD.cellsD 1 xG xG (some [("x", [0])]) (some [("x", [0])])

/-- The correspondence table after the successful `compose(dst, f, 0)` of
scenario 1. -/
def scen1Map : Mapping :=
  [(("x", 0), ⟨0, false⟩), (("f", 0), ⟨0, true⟩), (("y", 0), ⟨0, true⟩)]

/-- A 2-dimensional diagram with source and target `f`, used to exercise
`adapt`/`permute` at a level whose source inventory is a dict. -/
def dD : Ntext :=
  .mk (.inv [("d", .recs [some ⟨[("f", [0])], [("f", [0])]⟩])]) 2 fD fD
    (some [("f", [0])]) (some [("f", [0])])

/-- A standalone generator: the exact shape produced by `zcell`. -/
def Good0 (d : Ntext) : Prop := ∃ n, d = zcell n

/-- Some name in the inventory carries a non-zero integer count (every
inventory the constructors produce counts its 0-cells this way). -/
def HasPosCnt (I : NtextMap) : Prop := ∃ n k, lookupD I n = some (.cnt (k + 1))

/-- The shape invariant of every diagram the public constructors can
produce: a standalone generator, or a 1-dimensional diagram with generator
boundaries, a non-empty `smap`, and a counted 0-cell in its inventory. -/
def Good (d : Ntext) : Prop :=
  Good0 d ∨
    ∃ I s t sm tm, d = .mk (.inv I) 1 s t (some sm) (some tm) ∧
      Good0 s ∧ Good0 t ∧ sm ≠ [] ∧ HasPosCnt I

/-- The diagrams producible through the public API: generators, generator
cells, identities, and the results of successful compositions (the
stateful composer only ever holds `icell`/`compose` results). -/
inductive Constructible : Ntext → Prop where
  | zc (name : String) : Constructible (zcell name)
  | nc {name : String} {s t d : Ntext} : Constructible s → Constructible t →
      ncell name s t = .ok d → Constructible d
  | ic {s d : Ntext} : Constructible s → icell s = .ok d → Constructible d
  | cp {dst src : Ntext} {dim : Nat} {m : Mapping} {out : ComposeOut} :
      Constructible dst → Constructible src →
      compose dst src dim m = .ok out → out.ok = true → Constructible out.res

/-- The full output of the successful `compose(dst, f, 0)` of scenario 1. -/
def scen1Out : ComposeOut := ⟨fD, true, idXAfter, scen1Map⟩

/-- The 1-cell `ncell("e", x, x)` with equal source and target names. -/
def c5Val : Ntext :=
  .mk (.inv [("e", .recs [some ⟨[("x", [0])], [("x", [1])]⟩]), ("x", .cnt 2)])
    1 (zcell "x") (zcell "x") (some [("x", [0])]) (some [("x", [1])])

/-! Helper lemmas. -/

/-- Inversion of a successful `Except` bind. -/
theorem bindOk {α β : Type} {e : Except PyErr α} {f : α → Except PyErr β}
    {b : β} (h : (e >>= f) = .ok b) : ∃ a, e = .ok a ∧ f a = .ok b := by
  cases e with
  | error x => simp [Bind.bind, Except.bind] at h
  | ok a => exact ⟨a, rfl, by simpa [Bind.bind, Except.bind] using h⟩

/-- Looking up the key just written. -/
theorem lookupD_setD_self {α : Type} (d : Dict α) (k : String) (v : α) :
    lookupD (setD d k v) k = some v := by
  induction d with
  | nil => simp [setD, lookupD]
  | cons hd tl ih =>
      obtain ⟨k1, v1⟩ := hd
      by_cases he : k = k1
      · simp [setD, he, lookupD]
      · by_cases hl : keyLt k k1
        · simp [setD, he, hl, lookupD]
        · simp [setD, he, hl, lookupD, ih]

/-- Writing one key leaves the others unchanged. -/
theorem lookupD_setD_ne {α : Type} (d : Dict α) {k k1 : String} (v : α)
    (h : k ≠ k1) : lookupD (setD d k1 v) k = lookupD d k := by
  induction d with
  | nil => simp [setD, lookupD, h]
  | cons hd tl ih =>
      obtain ⟨k2, v2⟩ := hd
      by_cases he : k1 = k2
      · simp [setD, he, lookupD]
        subst he
        simp [h]
      · by_cases hl : keyLt k1 k2
        · simp [setD, he, hl, lookupD, h]
        · simp [setD, he, hl, lookupD, ih]

/-- The `_ncell` source loop fails on any inventory holding a count. -/
theorem ncellSrcLoop_err (I : NtextMap) (acc : NtextMap × SDict)
    (h : ∃ n k, lookupD I n = some (.cnt k)) :
    ncellSrcLoop I acc = .error .typeError := by
  induction I generalizing acc with
  | nil => obtain ⟨n, k, hn⟩ := h; simp [lookupD] at hn
  | cons hd tl ih =>
      obtain ⟨n, k, hn⟩ := h
      obtain ⟨n0, v0⟩ := hd
      cases v0 with
      | cnt c => rfl
      | recs cs =>
          simp only [lookupD] at hn
          by_cases he : n = n0
          · rw [if_pos he] at hn; exact absurd hn (by simp)
          · rw [if_neg he] at hn
            exact ih _ ⟨n, k, hn⟩

/-- The `icell` loop fails on any inventory holding a count. -/
theorem icellLoop_err (I : NtextMap) (acc : SDict)
    (h : ∃ n k, lookupD I n = some (.cnt k)) :
    icellLoop I acc = .error .typeError := by
  induction I generalizing acc with
  | nil => obtain ⟨n, k, hn⟩ := h; simp [lookupD] at hn
  | cons hd tl ih =>
      obtain ⟨n, k, hn⟩ := h
      obtain ⟨n0, v0⟩ := hd
      cases v0 with
      | cnt c => rfl
      | recs cs =>
          simp only [lookupD] at hn
          by_cases he : n = n0
          · rw [if_pos he] at hn; exact absurd hn (by simp)
          · rw [if_neg he] at hn
            exact ih _ ⟨n, k, hn⟩

/-- The allocation counter never decreases. -/
theorem allocLoop_ge (name : String) (l : List Nat) (m : Mapping) (cl : Nat) :
    cl ≤ (allocLoop name l m cl).2 := by
  induction l generalizing m cl with
  | nil => simp [allocLoop]
  | cons i rest ih =>
      by_cases hi : (lookupM m (name, i)).isSome
      · simpa [allocLoop, hi] using ih m cl
      · simp only [allocLoop, hi]
        exact le_trans (Nat.le_succ cl) (ih _ (cl + 1))

/-- `pre_stitch` (one name) keeps a positive count positive: the only way
it touches a counted name is to bump the counter (a list-valued `src`
entry over a positive count raises `TypeError` instead). -/
theorem preStitchOne_cnt {d : NtextMap} {m : Mapping} {name : String}
    {v : CellVal} {d1 : NtextMap} {m1 : Mapping} {nm : String} {k : Nat}
    (hd : lookupD d nm = some (.cnt (k + 1)))
    (h : preStitchOne d m name v = .ok (d1, m1)) :
    ∃ k1, lookupD d1 nm = some (.cnt (k1 + 1)) := by
  by_cases hne : name = nm
  · subst hne
    cases v with
    | cnt length =>
        simp only [preStitchOne, hd] at h
        rw [if_neg (by simp)] at h
        rw [Except.ok.injEq, Prod.mk.injEq] at h
        obtain ⟨h1, _⟩ := h
        subst h1
        refine ⟨(allocLoop name (List.range length) m (k + 1)).2 - 1, ?_⟩
        rw [lookupD_setD_self]
        have hge := allocLoop_ge name (List.range length) m (k + 1)
        congr 2
        omega
    | recs lst => simp [preStitchOne, hd] at h
  · have hne2 : nm ≠ name := fun hx => hne hx.symm
    cases v with
    | cnt length =>
        cases hl : lookupD d name with
        | none =>
            simp only [preStitchOne, hl] at h
            rw [Except.ok.injEq, Prod.mk.injEq] at h
            obtain ⟨h1, _⟩ := h
            subst h1
            rw [lookupD_setD_ne _ _ hne2, lookupD_setD_ne _ _ hne2]
            exact ⟨k, hd⟩
        | some v2 =>
            cases v2 with
            | cnt c =>
                simp only [preStitchOne, hl] at h
                rw [Except.ok.injEq, Prod.mk.injEq] at h
                obtain ⟨h1, _⟩ := h
                subst h1
                rw [lookupD_setD_ne _ _ hne2]
                refine ⟨k, ?_⟩
                by_cases hc : c = 0
                · rw [if_pos hc, lookupD_setD_ne _ _ hne2]
                  exact hd
                · rw [if_neg hc]
                  exact hd
            | recs l =>
                simp only [preStitchOne, hl] at h
                by_cases hall : (List.range length).all
                    (fun i => (lookupM m (name, i)).isSome)
                · rw [if_pos hall, Except.ok.injEq, Prod.mk.injEq] at h
                  obtain ⟨h1, _⟩ := h
                  subst h1
                  rw [lookupD_setD_ne _ _ hne2]
                  exact ⟨k, hd⟩
                · rw [if_neg hall] at h
                  exact absurd h (by simp)
    | recs lst =>
        cases hl : lookupD d name with
        | none =>
            simp only [preStitchOne, hl] at h
            rw [Except.ok.injEq, Prod.mk.injEq] at h
            obtain ⟨h1, _⟩ := h
            subst h1
            rw [lookupD_setD_ne _ _ hne2]
            exact ⟨k, hd⟩
        | some v2 =>
            cases v2 with
            | cnt c =>
                cases c with
                | zero =>
                    simp only [preStitchOne, hl] at h
                    rw [Except.ok.injEq, Prod.mk.injEq] at h
                    obtain ⟨h1, _⟩ := h
                    subst h1
                    rw [lookupD_setD_ne _ _ hne2]
                    exact ⟨k, hd⟩
                | succ c2 => simp [preStitchOne, hl] at h
            | recs l =>
                simp only [preStitchOne, hl] at h
                rw [Except.ok.injEq, Prod.mk.injEq] at h
                obtain ⟨h1, _⟩ := h
                subst h1
                rw [lookupD_setD_ne _ _ hne2]
                exact ⟨k, hd⟩

/-- `pre_stitch` keeps a positive count positive. -/
theorem pre_stitch_cnt {s : NtextMap} {d : NtextMap} {m : Mapping}
    {d1 : NtextMap} {m1 : Mapping} {nm : String} {k : Nat}
    (hd : lookupD d nm = some (.cnt (k + 1)))
    (h : pre_stitch d m s = .ok (d1, m1)) :
    ∃ k1, lookupD d1 nm = some (.cnt (k1 + 1)) := by
  induction s generalizing d m k with
  | nil =>
      simp only [pre_stitch, Except.ok.injEq, Prod.mk.injEq] at h
      obtain ⟨h1, _⟩ := h
      subst h1
      exact ⟨k, hd⟩
  | cons hd0 tl ih =>
      obtain ⟨name, v⟩ := hd0
      simp only [pre_stitch] at h
      obtain ⟨⟨da, ma⟩, ha, hb⟩ := bindOk h
      obtain ⟨ka, hka⟩ := preStitchOne_cnt hd ha
      exact ih hka hb

/-- `stitch`'s main pass (one name) never changes a counted entry. -/
theorem mainStitchOne_cnt {d : NtextMap} {m : Mapping} {name : String}
    {v : CellVal} {d2 : NtextMap} {nm : String} {k : Nat}
    (hd : lookupD d nm = some (.cnt (k + 1)))
    (h : mainStitchOne d m name v = .ok d2) :
    lookupD d2 nm = some (.cnt (k + 1)) := by
  cases v with
  | cnt c =>
      simp only [mainStitchOne, Except.ok.injEq] at h
      subst h; exact hd
  | recs lst =>
      cases hl : lookupD d name with
      | none => simp [mainStitchOne, hl] at h
      | some v2 =>
          cases v2 with
          | cnt c =>
              simp only [mainStitchOne, hl] at h
              obtain ⟨u, _, hb⟩ := bindOk h
              simp only [Except.ok.injEq] at hb
              subst hb; exact hd
          | recs l =>
              by_cases hne : name = nm
              · subst hne
                rw [hl] at hd
                exact absurd hd (by simp)
              · have hne2 : nm ≠ name := fun hx => hne hx.symm
                simp only [mainStitchOne, hl] at h
                obtain ⟨l2, _, hb⟩ := bindOk h
                simp only [Except.ok.injEq] at hb
                subst hb
                rw [lookupD_setD_ne _ _ hne2]
                exact hd

/-- `stitch`'s main pass never changes a counted entry. -/
theorem mainStitch_cnt {s : NtextMap} {d : NtextMap} {m : Mapping}
    {d2 : NtextMap} {nm : String} {k : Nat}
    (hd : lookupD d nm = some (.cnt (k + 1)))
    (h : mainStitch d m s = .ok d2) :
    lookupD d2 nm = some (.cnt (k + 1)) := by
  induction s generalizing d with
  | nil =>
      simp only [mainStitch, Except.ok.injEq] at h
      subst h; exact hd
  | cons hd0 tl ih =>
      obtain ⟨name, v⟩ := hd0
      simp only [mainStitch] at h
      obtain ⟨da, ha, hb⟩ := bindOk h
      exact ih (mainStitchOne_cnt hd ha) hb

/-- `stitch` on the cells of two inventoried diagrams keeps a positive
count positive and returns an inventory. -/
theorem stitchCells_cnt {I J : NtextMap} {m : Mapping} {cl : Cells}
    {m2 : Mapping} {nm : String} {k : Nat}
    (hd : lookupD I nm = some (.cnt (k + 1)))
    (h : stitchCells (.inv I) (.inv J) m = .ok (cl, m2)) :
    ∃ I2 k2, cl = .inv I2 ∧ lookupD I2 nm = some (.cnt (k2 + 1)) := by
  simp only [stitchCells] at h
  obtain ⟨⟨da, ma⟩, ha, hb⟩ := bindOk h
  obtain ⟨d2, hc, he⟩ := bindOk hb
  obtain ⟨ka, hka⟩ := pre_stitch_cnt hd ha
  simp only [Except.ok.injEq, Prod.mk.injEq] at he
  obtain ⟨he1, _⟩ := he
  exact ⟨d2, ka, he1.symm, mainStitch_cnt hka hc⟩

/-- The recursive (`dim > 0`) branch of `compose` never returns: every path
ends in an exception (`assert`, the key-unpacking loop, or the unassigned
`smap`/`tmap` at the final constructor). -/
theorem composeHighTail_ne_ok {e0 e1 : Except PyErr ComposeOut}
    {a b c d : Option SDict} {out : ComposeOut}
    (h : composeHighTail e0 a b e1 c d = .ok out) : False := by
  simp only [composeHighTail] at h
  obtain ⟨o0, h0, h⟩ := bindOk h
  cases hok : o0.ok with
  | false => rw [hok] at h; simp at h
  | true =>
      rw [hok] at h
      simp only [Bool.not_true, Bool.false_eq_true, if_false] at h
      obtain ⟨u, hu, h⟩ := bindOk h
      obtain ⟨o1, h1, h⟩ := bindOk h
      cases hok1 : o1.ok with
      | false => rw [hok1] at h; simp at h
      | true =>
          rw [hok1] at h
          simp only [Bool.not_true, Bool.false_eq_true, if_false] at h
          obtain ⟨u2, hu2, h⟩ := bindOk h
          simp at h

/-- Inversion of a successful vertical-composition tail. -/
theorem composeVertTail_ok {ntext : Cells} {ddim : Nat}
    {dsource dtarget starget : Ntext} {dsmap dtmap stmap : Option SDict}
    {mapping : Mapping} {out : ComposeOut}
    (h : composeVertTail ntext ddim dsource dtarget dsmap dtmap starget stmap
      mapping = .ok out) :
    ∃ stm tmapN, stmap = some stm ∧ transMap mapping stm [] = .ok tmapN ∧
      out = ⟨.mk ntext ddim dsource starget dsmap (some tmapN), true,
        .mk ntext ddim dsource dtarget dsmap dtmap, mapping⟩ := by
  cases stmap with
  | none => simp [composeVertTail] at h
  | some stm =>
      simp only [composeVertTail] at h
      obtain ⟨tmapN, h1, h2⟩ := bindOk h
      simp only [Except.ok.injEq] at h2
      exact ⟨stm, tmapN, rfl, h1, h2.symm⟩

/-- A `composable` call can only answer `True` for two non-`None` diagrams
of equal dimension. -/
theorem composable_ok_shape {dst src : Ntext} {dim : Nat} {mo : Option Mapping}
    {co2 : Option Mapping} (h : composable dst src dim mo = .ok (true, co2)) :
    dst ≠ .null ∧ src ≠ .null ∧ dst.dimD = src.dimD := by
  cases dst with
  | null => simp [composable] at h
  | mk dc ddim ds dt dsm dtm =>
      cases src with
      | null => simp [composable] at h
      | mk sc sdim ss st ssm stm =>
          refine ⟨by simp, by simp, ?_⟩
          by_cases hde : ddim = sdim
          · simpa [Ntext.dimD] using hde
          · rw [composable, if_pos hde] at h
            simp at h

/-- `composable` with a supplied mapping always raises on two standalone
generators: their faces are `None` with `None` index maps, so either the
recursive `get_face` hits `None.source` or the population loop hits
`None.items()`. -/
theorem composable_zz (a b : String) (dim : Nat) (m0 : Mapping) :
    composable (zcell a) (zcell b) dim (some m0) = .error .attributeError := by
  cases dim with
  | zero => rfl
  | succ d => simp [composable, zcell, get_face, Bind.bind, Except.bind]

/-- Master inversion for `compose`: a normal return is either the clean
not-composable answer with `dst` untouched, or a successful vertical
(`dim == 0`) composition whose result and mutated `dst` share the stitched
inventory. -/
theorem compose_ok_cases {dst src : Ntext} {dim : Nat} {m0 : Mapping}
    {out : ComposeOut} (h : compose dst src dim m0 = .ok out) :
    (out.ok = false ∧ out.res = .null ∧ out.dstA = dst) ∨
    (out.ok = true ∧ dim = 0 ∧
      ∃ co2 cl m2 stm tmapN,
        composable dst src dim (some m0) = .ok (true, co2) ∧
        stitchCells dst.cellsD src.cellsD (co2.getD m0) = .ok (cl, m2) ∧
        src.tmapD = some stm ∧ transMap m2 stm [] = .ok tmapN ∧
        out = ⟨.mk cl dst.dimD dst.sourceD src.targetD dst.smapD (some tmapN),
          true, .mk cl dst.dimD dst.sourceD dst.targetD dst.smapD dst.tmapD,
          m2⟩) := by
  cases dst with
  | null => simp [compose] at h
  | mk dc ddim ds dt dsm dtm =>
      simp only [compose] at h
      obtain ⟨co, hco, h⟩ := bindOk h
      obtain ⟨cob, com⟩ := co
      cases cob with
      | false =>
          simp only [Bool.not_false, if_true] at h
          simp only [Except.ok.injEq] at h
          left
          rw [← h]
          exact ⟨rfl, rfl, rfl⟩
      | true =>
          simp only [Bool.not_true, Bool.false_eq_true, if_false] at h
          cases src with
          | null => simp at h
          | mk sc sdim ss st ssm stm =>
              obtain ⟨stp, hst, h⟩ := bindOk h
              by_cases hdim : dim > 0
              · rw [if_pos hdim] at h
                exact absurd h (fun hh => composeHighTail_ne_ok hh)
              · rw [if_neg hdim] at h
                obtain ⟨stm2, tmapN, hsome, htr, hout⟩ := composeVertTail_ok h
                right
                refine ⟨by rw [hout], by omega, com, stp.1, stp.2, stm2, tmapN,
                  hco, ?_, by simpa [Ntext.tmapD] using hsome, htr, ?_⟩
                · cases com with
                  | none => simpa [Ntext.cellsD, Option.getD] using hst
                  | some m1 => simpa [Ntext.cellsD, Option.getD] using hst
                · rw [hout]
                  simp [Ntext.dimD, Ntext.sourceD, Ntext.targetD, Ntext.smapD,
                    Ntext.tmapD]

/-- Two standalone generators are always compatible (no boundary). -/
theorem compatible_zz (a b : String) : compatible (zcell a) (zcell b) = .ok true :=
  rfl

/-- `icell` on a standalone generator. -/
theorem icell_zc (a : String) : icell (zcell a) = .ok (.mk (.inv [(a, .cnt 1)])
    1 (zcell a) (zcell a) (some [(a, [0])]) (some [(a, [0])])) :=
  rfl

/-- `ncell` on two standalone generators when the new name collides with
the target's (but not the source's) name: the `ntext[tn] += 1` update hits
the new record list and raises `TypeError`. -/
theorem ncell_zz_err (name a b : String) (hb : b = name ∧ b ≠ a) :
    ncell name (zcell a) (zcell b) = .error .typeError := by
  have h1 : ncell name (zcell a) (zcell b)
      = _ncell name (zcell a) (zcell b) := rfl
  rw [h1, zcell, zcell, _ncell.eq_def]
  dsimp only
  rw [if_pos hb]
  simp

/-- `ncell` on two standalone generators, fully characterised (apart from
the degenerate collision of `power`): one slot for the source name, a
second slot for the target name when it repeats the source's (count 2,
`tmap` pointing at index 1), otherwise its own slot, and the new record
built from copies of `smap`/`tmap`. -/
theorem ncell_zz (name a b : String) (hb : ¬(b = name ∧ b ≠ a)) :
    ncell name (zcell a) (zcell b) = .ok (.mk
      (.inv (if b = a
        then setD (setD [(name, CellVal.recs [some ⟨[(a, [0])], [(b, [1])]⟩])] a
          (.cnt 1)) b (.cnt 2)
        else setD (setD [(name, CellVal.recs [some ⟨[(a, [0])], [(b, [0])]⟩])] a
          (.cnt 1)) b (.cnt 1)))
      1 (zcell a) (zcell b) (some [(a, [0])])
      (some [(b, [if b = a then 1 else 0])])) := by
  have h1 : ncell name (zcell a) (zcell b)
      = _ncell name (zcell a) (zcell b) := rfl
  rw [h1, zcell, zcell, _ncell.eq_def]
  dsimp only
  rw [if_neg hb]
  by_cases hba : b = a
  · simp only [if_pos hba, gt_iff_lt, Nat.lt_irrefl, if_false]
  · simp only [if_neg hba, gt_iff_lt, Nat.lt_irrefl, if_false]

/-- Every diagram producible through the public API satisfies the shape
invariant `Good`: it is a standalone generator or a 1-dimensional diagram
with generator boundaries (`ncell` and `icell` crash on any 1-dimensional
argument because of its counted 0-cells, and `compose` only ever returns a
diagram from its vertical branch). -/
theorem good_of_constructible {d : Ntext} (h : Constructible d) : Good d := by
  induction h with
  | zc name => exact Or.inl ⟨name, rfl⟩
  | nc hs ht heq ihs iht =>
      rename_i name s t d0
      rcases ihs with ⟨a, hsa⟩ | ⟨I, s0, t0, sm, tm, hseq, _, _, _, hpc⟩
      · subst hsa
        rcases iht with ⟨b, htb⟩ | ⟨J, s1, t1, sm1, tm1, hteq, hgs1, _, _, _⟩
        · subst htb
          by_cases hb : (b = name ∧ b ≠ a)
          · rw [ncell_zz_err name a b hb] at heq
            exact absurd heq (by simp)
          · rw [ncell_zz name a b hb, Except.ok.injEq] at heq
            subst heq
            right
            by_cases hba : b = a
            · rw [if_pos hba]
              refine ⟨_, _, _, _, _, rfl, ⟨a, rfl⟩, ⟨b, rfl⟩, by simp, ?_⟩
              subst hba
              exact ⟨b, 1, lookupD_setD_self _ _ _⟩
            · rw [if_neg hba]
              refine ⟨_, _, _, _, _, rfl, ⟨a, rfl⟩, ⟨b, rfl⟩, by simp, ?_⟩
              refine ⟨a, 0, ?_⟩
              rw [lookupD_setD_ne _ _ (fun hx => hba hx.symm),
                lookupD_setD_self]
        · -- t is 1-dimensional: its source is a generator, not None, so
          -- compatible answers False and ncell raises NotCompatible
          subst hteq
          obtain ⟨c0, hc0⟩ := hgs1
          subst hc0
          simp [ncell, compatible, zcell, Bind.bind, Except.bind] at heq
      · -- s is 1-dimensional: the source-copy loop hits a counted entry
        subst hseq
        obtain ⟨n, k, hpk⟩ := hpc
        have hsrc : ncellSrcLoop I
            ([(name, CellVal.recs [some ⟨[], []⟩])], []) = .error .typeError :=
          ncellSrcLoop_err _ _ ⟨n, k + 1, hpk⟩
        have h2 : ncell name (.mk (.inv I) 1 s0 t0 (some sm) (some tm)) t
            = _ncell name (.mk (.inv I) 1 s0 t0 (some sm) (some tm)) t := by
          simp only [ncell]
          obtain ⟨c, hc, hrest⟩ := bindOk heq
          rw [hc]
          cases c with
          | false => simp at hrest
          | true => simp [Bind.bind, Except.bind]
        rw [h2, _ncell.eq_def] at heq
        dsimp only at heq
        rw [if_pos (by simp)] at heq
        rw [hsrc] at heq
        simp [Bind.bind, Except.bind] at heq
  | ic hs heq ihs =>
      rename_i s d0
      rcases ihs with ⟨a, hsa⟩ | ⟨I, s0, t0, sm, tm, hseq, _, _, _, hpc⟩
      · subst hsa
        rw [icell_zc, Except.ok.injEq] at heq
        subst heq
        right
        exact ⟨[(a, .cnt 1)], zcell a, zcell a, [(a, [0])], [(a, [0])], rfl,
          ⟨a, rfl⟩, ⟨a, rfl⟩, by simp, ⟨a, 0, by simp [lookupD]⟩⟩
      · subst hseq
        obtain ⟨n, k, hpk⟩ := hpc
        rw [icell.eq_def] at heq
        dsimp only at heq
        rw [if_neg (by simp)] at heq
        rw [icellLoop_err I [] ⟨n, k + 1, hpk⟩] at heq
        simp [Bind.bind, Except.bind] at heq
  | cp hdst hsrc heq hok ihdst ihsrc =>
      rename_i dst0 src0 dim0 mm out0
      rcases compose_ok_cases heq with ⟨hf, _, _⟩ |
        ⟨_, hdim0, co2, cl, m2, stmv, tmapN, hcomp, hstitch, hstm, htrans, hout⟩
      · rw [hok] at hf; cases hf
      · subst hdim0
        obtain ⟨hdn, hsn, hdims⟩ := composable_ok_shape hcomp
        rcases ihdst with ⟨a, hda⟩ | ⟨I, s0, t0, sm, tm, hdeq, hgs0, hgt0, hsm, hpc⟩
        · subst hda
          rcases ihsrc with ⟨b, hsb⟩ | ⟨J, s1, t1, sm1, tm1, hseq2, _, _, _, _⟩
          · subst hsb
            rw [composable_zz] at hcomp
            exact absurd hcomp (by simp)
          · subst hseq2
            simp [zcell, Ntext.dimD] at hdims
        · subst hdeq
          rcases ihsrc with ⟨b, hsb⟩ | ⟨J, s1, t1, sm1, tm1, hseq2, hgs1, hgt1, hsm1, hpc1⟩
          · subst hsb
            simp [zcell, Ntext.dimD] at hdims
          · subst hseq2
            obtain ⟨n, k, hpk⟩ := hpc
            have hstitch2 : stitchCells (.inv I) (.inv J) (co2.getD mm)
                = .ok (cl, m2) := by simpa [Ntext.cellsD] using hstitch
            obtain ⟨I2, k2, hcl, hlk⟩ := stitchCells_cnt hpk hstitch2
            rw [hout]
            right
            refine ⟨I2, s0, t1, sm, tmapN, ?_, hgs0, hgt1, hsm, ⟨n, k2, hlk⟩⟩
            simp [Ntext.dimD, Ntext.sourceD, Ntext.targetD, Ntext.smapD, hcl]

/-! The claims. -/

/-- Claim C1: the spec says `compose(dst, src, dim)` succeeds iff
`composable(dst, src, dim)` is true, failing with `NotComposable` and
leaving `dst` unchanged otherwise.  The code refutes this: with `dst` the
identity state on `x` (two diagrams of equal dimension 1) and `src = g`,
the public `composable` answers `False`, yet `compose` raises `KeyError`
(the mapping-population loop of `composable` indexes the target face map
with the name `y` before the equality check), so the composer surfaces
`KeyError` instead of `NotComposable`. -/
theorem claim1_compose_iff_composable :
    idX.dimD = gD.dimD ∧
    composable idX gD 0 none = .ok (false, none) ∧
    compose idX gD 0 [] = .error .keyError ∧
    compositionStep idX gD 0 = .error .keyError := by decide

/-- Claim C2: the spec says `makeCell(name, source, target)` fails only
with `NotCompatible`, and succeeds on every compatible pair including
boundaries of dimension 1 or more.  The code refutes the claim: `f` is
compatible with itself, but `ncell("h", f, f)` raises `TypeError`
(the source-copy loop of `_ncell` iterates the integer count stored for
the 0-cell `x`). -/
theorem claim2_ncell_dim1 :
    compatible fD fD = .ok true ∧ ncell "h" fD fD = .error .typeError := by
  decide

/-- Claim C3 (counterexample): the spec says stitching operates on a copy
of `dst`'s cell inventory, leaving `dst` unchanged after a successful
composition.  In scenario 1 the successful `compose(dst, f, 0)` mutates
`dst.cells` in place (`ntext = dst.cells` takes no copy): afterwards `dst`
holds the composite's inventory and differs from its original value. -/
theorem claim3_counterexample :
    compose idX fD 0 [] = .ok scen1Out ∧ scen1Out.dstA ≠ idX := by decide

/-- Claim C3 (amended): a `compose` call that returns leaves `dst` exactly
as it was when the answer is not-composable, but on success `dst`'s cell
inventory has been replaced in place by the composite's (shared) inventory
— `dst` differs from its original value in precisely the `cells` field. -/
theorem claim3_amended (dst src : Ntext) (dim : Nat) (m : Mapping)
    (out : ComposeOut) (h : compose dst src dim m = .ok out) :
    (out.ok = false → out.dstA = dst) ∧
    (out.ok = true → out.dstA = dst.withCells out.res.cellsD) := by
  rcases compose_ok_cases h with ⟨hf, _, hd⟩ |
    ⟨ht, _, co2, cl, m2, stmv, tmapN, hcomp, _, _, _, hout⟩
  · constructor
    · intro _; exact hd
    · intro hh; rw [hf] at hh; exact absurd hh (by simp)
  · constructor
    · intro hh; rw [ht] at hh; exact absurd hh (by simp)
    intro _
    obtain ⟨hdn, _, _⟩ := composable_ok_shape hcomp
    cases dst with
    | null => exact absurd rfl hdn
    | mk dc ddim ds dt dsm dtm =>
        rw [hout]
        simp [Ntext.withCells, Ntext.cellsD, Ntext.dimD, Ntext.sourceD,
          Ntext.targetD, Ntext.smapD, Ntext.tmapD]

/-- Witness for the amended claim C3, at the scenario 1 inputs. -/
theorem claim3_witness :
    compose idX fD 0 [] = .ok scen1Out ∧
    ((scen1Out.ok = false → scen1Out.dstA = idX) ∧
      (scen1Out.ok = true → scen1Out.dstA = idX.withCells scen1Out.res.cellsD)) :=
  ⟨by decide, claim3_amended idX fD 0 [] scen1Out (by decide)⟩

/-- Claim C4: scenario 1 — with `x = makeGenerator("x")`,
`y = makeGenerator("y")`, `f = makeCell("f", x, y)`, seeding a composer
from `f` gives the identity state on `x`, `composer.compose(f, 0)`
succeeds, and the new state (hence the snapshot, an independent copy) is
structurally equal to `f`. -/
theorem claim4_left_identity :
    ncell "f" xG yG = .ok fD ∧ compositionInit fD = .ok idX ∧
    compositionStep idX fD 0 = .ok fD ∧ compositionNtext fD = fD := by decide

/-- Claim C5 (counterexample): the spec says that for two dimension-0
boundaries with the same name, the target occurrence shares the source's
slot.  The code refutes this: `ncell("e", x, x)` stores TWO occurrences of
`x` (count 2), with `smap` pointing at slot 0 and `tmap` at the fresh slot
1, and the new record's maps pointing at those distinct slots. -/
theorem claim5_counterexample :
    ncell "e" (zcell "x") (zcell "x") = .ok c5Val ∧
    c5Val.invLookup "x" = some (.cnt 2) ∧
    c5Val.smapD = some [("x", [0])] ∧ c5Val.tmapD = some [("x", [1])] := by
  decide

/-- Claim C5 (amended): for `makeCell` over dimension-0 boundaries with a
fresh cell name, the inventory gets one occurrence of the source's name
and one occurrence of the target's name — a SECOND slot (count 2, `tmap`
index 1) when the two names coincide, a fresh separate slot otherwise —
and the single new cell record's source/target maps are copies of
`smap`/`tmap`, pointing at those slots. -/
theorem claim5_amended (name a b : String) (h1 : name ≠ a) (h2 : name ≠ b) :
    ncell name (zcell a) (zcell b) = .ok (.mk
      (.inv (if b = a
        then setD (setD [(name, CellVal.recs [some ⟨[(a, [0])], [(b, [1])]⟩])] a
          (.cnt 1)) b (.cnt 2)
        else setD (setD [(name, CellVal.recs [some ⟨[(a, [0])], [(b, [0])]⟩])] a
          (.cnt 1)) b (.cnt 1)))
      1 (zcell a) (zcell b) (some [(a, [0])])
      (some [(b, [if b = a then 1 else 0])])) :=
  ncell_zz name a b (fun hx => h2 hx.1.symm)

/-- Witness for the amended claim C5, at `name = "e"`, both boundaries
named `"x"`. -/
theorem claim5_witness :
    ncell "e" (zcell "x") (zcell "x") = .ok (.mk
      (.inv (if ("x" : String) = "x"
        then setD (setD [("e", CellVal.recs
          [some ⟨[("x", [0])], [("x", [1])]⟩])] "x" (.cnt 1)) "x" (.cnt 2)
        else setD (setD [("e", CellVal.recs
          [some ⟨[("x", [0])], [("x", [0])]⟩])] "x" (.cnt 1)) "x" (.cnt 1)))
      1 (zcell "x") (zcell "x") (some [("x", [0])])
      (some [("x", [if ("x" : String) = "x" then 1 else 0])])) :=
  claim5_amended "e" "x" "x" (by decide) (by decide)

/-- Claim C6: the spec says `composable` never raises (fails closed) and
that in scenario 2 `composer.compose(g, 0)` fails with `NotComposable`.
The code refutes both parts: `composable(f, f, 1)` raises `TypeError`
(the recursive `get_face` subscripts the `None` face map of the
0-dimensional boundary), and the composer call raises `KeyError`, not
`NotComposable`, because `compose` hands `composable` a mapping whose
population loop indexes the target face map with the absent name `y`
before the face equality is checked. -/
theorem claim6_scenario2 :
    composable fD fD 1 none = .error .typeError ∧
    ncell "g" yG xG = .ok gD ∧
    compositionStep idX gD 0 = .error .keyError ∧
    compositionStep idX gD 0 ≠ .error .notComposable := by decide

/-- Claim C7: the spec says `getFace(makeIdentity(A), A.dim, side)` equals
`A` for every `A`, including `A.dim >= 1`.  It holds for dimension 0 (both
sides of the identity on `x` give back `x`), but the code refutes the
general claim: for the 1-cell `f`, `makeIdentity(f)` itself raises
`TypeError` (`len()` of the integer count stored for the 0-cell `x`), so
the face can never be taken. -/
theorem claim7_identity_face :
    icell xG = .ok idX ∧
    get_face idX 0 (-1) = .ok (xG, some [("x", [0])]) ∧
    get_face idX 0 1 = .ok (xG, some [("x", [0])]) ∧
    ncell "f" xG yG = .ok fD ∧
    icell fD = .error .typeError := by
  refine ⟨by decide, by decide, by decide, by decide, by decide⟩

/-- Claim C8: every diagram of dimension at least 1 produced by the public
constructors and by composition is internally compatible —
`compatible(d.source, d.target)` holds and the two boundaries have equal
dimension.  (All such diagrams have dimension exactly 1 with generator
boundaries: `ncell`/`icell` crash on higher-dimensional input, so nothing
of dimension 2 or more is ever produced.) -/
theorem claim8_globular (d : Ntext) (h : Constructible d) (h1 : 1 ≤ d.dimD) :
    compatible d.sourceD d.targetD = .ok true ∧
    d.sourceD.dimD = d.targetD.dimD := by
  rcases good_of_constructible h with ⟨a, ha⟩ |
    ⟨I, s0, t0, sm, tm, heq, ⟨a, ha⟩, ⟨b, hb⟩, _, _⟩
  · subst ha; simp [zcell, Ntext.dimD] at h1
  · subst heq; subst ha; subst hb
    exact ⟨by simpa [Ntext.sourceD, Ntext.targetD] using compatible_zz a b,
      by simp [Ntext.sourceD, Ntext.targetD, zcell, Ntext.dimD]⟩

/-- Witness for claim C8, at the constructed 1-cell `f`. -/
theorem claim8_witness :
    1 ≤ fD.dimD ∧ compatible fD.sourceD fD.targetD = .ok true ∧
    fD.sourceD.dimD = fD.targetD.dimD :=
  ⟨by decide, claim8_globular fD
    (@Constructible.nc "f" (zcell "x") (zcell "y") fD (Constructible.zc "x")
      (Constructible.zc "y") (by decide)) (by decide)⟩

/-- Claim C9 (counterexample): the spec says constructing a composer never
fails, including on a 0-dimensional generator.  The code refutes this:
`Composition(zcell("x"))` evaluates `icell(None)` (a 0-cell has no source)
and raises `AttributeError`. -/
theorem claim9_counterexample :
    compositionInit (zcell "x") = .error .attributeError := by decide

/-- Claim C9 (amended): for a diagram built by the public API, constructing
a composer succeeds exactly when the diagram's dimension is 1 (its source
is then a generator, whose identity becomes the internal state); for a
0-dimensional generator it raises `AttributeError`. -/
theorem claim9_amended (d : Ntext) (h : Constructible d) :
    (∃ st, compositionInit d = .ok st) ↔ d.dimD = 1 := by
  rcases good_of_constructible h with ⟨a, ha⟩ |
    ⟨I, s0, t0, sm, tm, heq, ⟨a, ha⟩, _, _, _⟩
  · subst ha
    constructor
    · rintro ⟨st, hst⟩
      simp [compositionInit, zcell, icell] at hst
    · intro hd; simp [zcell, Ntext.dimD] at hd
  · subst heq; subst ha
    constructor
    · intro _; rfl
    · intro _
      exact ⟨_, icell_zc a⟩

/-- Witness for the amended claim C9, at the constructed 1-cell `f`. -/
theorem claim9_witness :
    (∃ st, compositionInit fD = .ok st) ↔ fD.dimD = 1 :=
  claim9_amended fD (@Constructible.nc "f" (zcell "x") (zcell "y") fD
    (Constructible.zc "x") (Constructible.zc "y") (by decide))

/-- Claim C10: the spec says `adapt` with a well-formed permutation and
then its inverse restores the original ordering and index map.  The code
refutes this for every non-empty permutation: `adapt` passes the diagram
`cell.source` itself (an `Ntext` named tuple) to `permute`, whose
`ntext[name]` subscripts a tuple with a string key and raises `TypeError`
— here on a 2-diagram with the identity permutation `{"f": [0]}` (its own
inverse), and likewise on the 1-cell `f`. -/
theorem claim10_adapt :
    adapt dD 0 [("f", [0])] = .error .typeError ∧
    adapt fD 0 [("x", [0])] = .error .typeError := by decide
